import Mathlib

/-!
Verification development for the product-image pipeline of
`src/server/services/downloadImages/imageService.ts` (the version exporting the
orchestrator `getImagesFromUrl` that detects a brand, extracts a product code,
generates candidate URLs, merges them with page-scraped URLs, clusters similar
URLs, and validates existence in batches).

Strings are modelled as Lean `String` (a wrapped `List Char`); the JavaScript
regular expressions used by the source are embedded as explicit scanning
functions with the same leftmost-match, ordered-alternation, greedy semantics
(justified case by case in comments).  Network I/O (axios) is modelled by
passing the would-be responses as explicit arguments: the page fetch as an
`Except Unit (List String)` (error = network/timeout/non-2xx failure, ok = the
candidate URLs the cheerio extraction finds in the fetched HTML) and the
per-URL probe as a function `String → Except Unit ProbeResponse`.
Exceptions thrown by the JavaScript code are modelled with `Except Unit`.
-/

/-! ### Character and string utilities (JS semantics) -/

/-- ASCII lower-casing of one character, as `String.prototype.toLowerCase`
acts on ASCII (the only characters appearing in the modelled patterns). -/
def lowCh (c : Char) : Char :=
  if 'A' ≤ c ∧ c ≤ 'Z' then Char.ofNat (c.toNat + 32) else c

/-- ASCII upper-casing of one character (`String.prototype.toUpperCase`). -/
def upCh (c : Char) : Char :=
  if 'a' ≤ c ∧ c ≤ 'z' then Char.ofNat (c.toNat - 32) else c

/-- `String.prototype.toLowerCase` (ASCII fragment). -/
def lowerStr (s : String) : String := String.mk (s.toList.map lowCh)

/-- `String.prototype.toUpperCase` (ASCII fragment). -/
def upperStr (s : String) : String := String.mk (s.toList.map upCh)

/-- Is `needle` a contiguous subsequence of `hay`?  (`String.prototype.includes`.) -/
def hasSeq (needle : List Char) : List Char → Bool
  | [] => needle.isEmpty
  | c :: rest => needle.isPrefixOf (c :: rest) || hasSeq needle rest

/-- `s.includes(sub)` of JavaScript. -/
def jsIncludes (s sub : String) : Bool := hasSeq sub.toList s.toList

/-- `s.startsWith(p)` of JavaScript. -/
def jsStartsWith (s p : String) : Bool := p.toList.isPrefixOf s.toList

/-- Case-insensitively consume the literal `pat` from the front of `s`,
returning the rest (the building block for the `/i`-flagged literals). -/
def dropLit : List Char → List Char → Option (List Char)
  | [], s => some s
  | _ :: _, [] => none
  | p :: ps, c :: cs => if lowCh c = lowCh p then dropLit ps cs else none

/-- `dropLit` with the pattern given as a string literal. -/
def dropLitS (pat : String) (s : List Char) : Option (List Char) :=
  dropLit pat.toList s

/-- Take exactly `n` characters satisfying `p` (a `{n}` bounded repetition
over a character class). -/
def takeN : Nat → (Char → Bool) → List Char → Option (List Char × List Char)
  | 0, _, s => some ([], s)
  | _ + 1, _, [] => none
  | n + 1, p, c :: cs =>
    if p c then (takeN n p cs).map (fun g => (c :: g.1, g.2)) else none

/-- Leftmost-match scanning: try the position matcher `f` at every suffix of
the subject, left to right, as an unanchored JavaScript regex does. -/
def scanFor (f : List Char → Option α) : List Char → Option α
  | [] => f []
  | c :: rest =>
    match f (c :: rest) with
    | some r => some r
    | none => scanFor f rest

/-- Character class `[0-9]`. -/
def isDigitCh (c : Char) : Bool := c.isDigit

/-- Character class `[A-Z]` under the `/i` flag. -/
def isAlphaCh (c : Char) : Bool := c.isAlpha

/-- Character class `[0-9A-Z]` under the `/i` flag. -/
def isAlnumCh (c : Char) : Bool := c.isAlpha || c.isDigit

/-- Character class `[a-zA-Z0-9-_]` (letters, digits, hyphen, underscore). -/
def isCodeCh (c : Char) : Bool := c.isAlpha || c.isDigit || c = '-' || c = '_'

/-- Character class `[a-zA-Z0-9-]` (letters, digits, hyphen). -/
def isAlnumDashCh (c : Char) : Bool := c.isAlpha || c.isDigit || c = '-'

/-- `s.replace(/x/g, y)` for one-character `x`, `y` (the source only uses
single-character global replaces on product codes). -/
def jsReplaceChar (s : String) (a b : Char) : String :=
  String.mk (s.toList.map (fun c => if c = a then b else c))

/-- `s.replace(/pat/g, rep)` for a literal multi-character pattern:
non-overlapping, left to right. -/
def replaceSeq (pat rep : List Char) : List Char → List Char
  | [] => []
  | c :: rest =>
    if h : ¬ pat.isEmpty ∧ pat.isPrefixOf (c :: rest) then
      rep ++ replaceSeq pat rep ((c :: rest).drop pat.length)
    else
      c :: replaceSeq pat rep rest
termination_by s => s.length
decreasing_by
  · simp only [List.length_drop]
    have hp : pat.length ≠ 0 := by
      intro h0
      exact h.1 (List.isEmpty_iff_length_eq_zero.mpr h0)
    simp only [List.length_cons]
    omega
  · simp

/-- `s.replace(/pat/g, rep)` on strings. -/
def jsReplaceSeq (s pat rep : String) : String :=
  String.mk (replaceSeq pat.toList rep.toList s.toList)

/-! ### Brand detection (`detectBrand`) -/

/-- The `SupportedBrand` enum of the source. -/
inductive SupportedBrand where
  | asics
  | bottegaVeneta
  | unknown
deriving DecidableEq

/-- `detectBrand`: case-insensitive substring matching on the URL. -/
def detectBrand (url : String) : SupportedBrand :=
  let lowerUrl := lowerStr url
  if jsIncludes lowerUrl "asics.com" || jsIncludes lowerUrl "asics/" then
    SupportedBrand.asics
  else if jsIncludes lowerUrl "bottegaveneta.com" || jsIncludes lowerUrl "bottegaveneta/" then
    SupportedBrand.bottegaVeneta
  else
    SupportedBrand.unknown

/-! ### Product-code extraction (`extractProductCode` and helpers)

Each JavaScript regex becomes a position matcher run under `scanFor`.  The
greedy `+` runs are realised with `takeWhile`; for each pattern a comment
justifies why maximal munch agrees with the regex's backtracking semantics. -/

/-- Body of ASICS patterns 1 and 2 after `/p/` (and the optional `ANA_`):
`([0-9A-Z]+)(?:-([0-9A-Z]+))?\.html` with the `/i` flag.  `.`, `-` are not in
the class `[0-9A-Z]`, so after a maximal class run the regex can never recover
by shortening the run (`\.html` then starts with a class character), and the
optional hyphen group behaves likewise; hence maximal munch plus the two
ordered attempts below is exactly the regex's backtracking order. -/
def asicsP1Code (s1 : List Char) : Option String :=
  let g1 := s1.takeWhile isAlnumCh
  let r1 := s1.dropWhile isAlnumCh
  if g1.isEmpty then none
  else
    match r1 with
    | '-' :: r2 =>
      let g2 := r2.takeWhile isAlnumCh
      let r3 := r2.dropWhile isAlnumCh
      if ¬ g2.isEmpty ∧ (dropLitS ".html" r3).isSome then
        some (jsReplaceChar (String.mk g1 ++ "_" ++ String.mk g2) '-' '_')
      else if (dropLitS ".html" r1).isSome then
        -- optional group taken empty: `.html` would have to follow `g1`
        -- directly, impossible here (r1 starts with '-'), kept for fidelity
        some (jsReplaceChar (String.mk g1) '-' '_')
      else none
    | _ =>
      if (dropLitS ".html" r1).isSome then some (jsReplaceChar (String.mk g1) '-' '_')
      else none

/-- Tail of ASICS pattern 3 after the code groups: `(?:-| |_)([0-9A-Z]{3})`. -/
def asicsP3Tail (d4 ls : List Char) (r : List Char) : Option String :=
  match (takeN 3 isDigitCh r) with
  | none => none
  | some (d3, r3) =>
    match r3 with
    | [] => none
    | sep :: r4 =>
      if sep = '-' ∨ sep = ' ' ∨ sep = '_' then
        match takeN 3 isAlnumCh r4 with
        | none => none
        | some (g2, _) => some (String.mk (d4 ++ ls ++ d3) ++ "_" ++ String.mk g2)
      else none

/-- ASICS pattern 3 at one position:
`([0-9]{4}[A-Z]{1,2}[0-9]{3})(?:-| |_)([0-9A-Z]{3})` with `/i`; the greedy
`{1,2}` tries two letters before one. -/
def asicsP3At (s : List Char) : Option String :=
  match takeN 4 isDigitCh s with
  | none => none
  | some (d4, r1) =>
    match takeN 2 isAlphaCh r1 with
    | some (l2, r2) =>
      match asicsP3Tail d4 l2 r2 with
      | some r => some r
      | none =>
        match takeN 1 isAlphaCh r1 with
        | some (l1, r2') => asicsP3Tail d4 l1 r2'
        | none => none
    | none =>
      match takeN 1 isAlphaCh r1 with
      | some (l1, r2') => asicsP3Tail d4 l1 r2'
      | none => none

/-- `extractAsicsProductCode`: the three ordered patterns of the source.
Pattern 1 is `/\/p\/(?:ANA_)?([0-9A-Z]+)(?:-([0-9A-Z]+))?\.html/i` (the greedy
optional `ANA_` is attempted before its absence); pattern 2 is the same
without the `ANA_` option; pattern 3 is `asicsP3At`. -/
def extractAsicsProductCode (url : String) : Option String :=
  match scanFor (fun s =>
      match dropLitS "/p/" s with
      | none => none
      | some s1 =>
        match (dropLitS "ANA_" s1).bind asicsP1Code with
        | some r => some r
        | none => asicsP1Code s1) url.toList with
  | some r => some r
  | none =>
    match scanFor (fun s => (dropLitS "/p/" s).bind asicsP1Code) url.toList with
    | some r => some r
    | none => scanFor asicsP3At url.toList

/-- Bottega Veneta pattern 3 at one position:
`([A-Z0-9]{6,})(?:-([A-Z0-9]{3,}))?` with `/i`.  The optional group may always
be taken empty, so the maximal class run is what `{6,}` (greedy) captures. -/
def bvP3At (s : List Char) : Option String :=
  let run := s.takeWhile isAlnumCh
  let rest := s.dropWhile isAlnumCh
  if run.length < 6 then none
  else
    match rest with
    | '-' :: r2 =>
      let g2 := r2.takeWhile isAlnumCh
      if g2.length < 3 then some (String.mk run)
      else some (String.mk run ++ "_" ++ String.mk g2)
    | _ => some (String.mk run)

/-- `extractBottegaVenetaProductCode`: pattern 1
`/\/product-detail\/([a-zA-Z0-9-]+)\.html/i`, pattern 2
`/[?&]code=([a-zA-Z0-9-]+)/i`, pattern 3 `bvP3At`.  `.` is not in the classes,
so maximal munch agrees with the regex. -/
def extractBottegaVenetaProductCode (url : String) : Option String :=
  match scanFor (fun s =>
      match dropLitS "/product-detail/" s with
      | none => none
      | some s1 =>
        let g1 := s1.takeWhile isAlnumDashCh
        let r1 := s1.dropWhile isAlnumDashCh
        if ¬ g1.isEmpty ∧ (dropLitS ".html" r1).isSome then some (String.mk g1)
        else none) url.toList with
  | some r => some r
  | none =>
    match scanFor (fun s =>
        match s with
        | c :: r =>
          if c = '?' ∨ c = '&' then
            match dropLitS "code=" r with
            | none => none
            | some r2 =>
              let g1 := r2.takeWhile isAlnumDashCh
              if g1.isEmpty then none else some (String.mk g1)
          else none
        | [] => none) url.toList with
    | some r => some r
    | none => scanFor bvP3At url.toList

/-- Generic pattern 1 at one position:
`/\/(p|products|product)\/([a-zA-Z0-9-_]+)(?:\.html)?/i`; the alternation is
tried in source order, each alternative followed by `/`. -/
def genericP1At (s : List Char) : Option String :=
  match s with
  | '/' :: r =>
    let afterAlt :=
      match dropLitS "p/" r with
      | some r2 => some r2
      | none =>
        match dropLitS "products/" r with
        | some r2 => some r2
        | none => dropLitS "product/" r
    match afterAlt with
    | none => none
    | some r2 =>
      let g2 := r2.takeWhile isCodeCh
      if g2.isEmpty then none
      else some (jsReplaceChar (String.mk g2) '-' '_')
  | _ => none

/-- Generic pattern 2 at one position: `/[?&](product_?id)=([a-zA-Z0-9-_]+)/i`
(the greedy optional `_` is attempted before its absence). -/
def genericP2At (s : List Char) : Option String :=
  match s with
  | c :: r =>
    if c = '?' ∨ c = '&' then
      match dropLitS "product" r with
      | none => none
      | some r1 =>
        let afterId :=
          match (dropLitS "_" r1).bind (dropLitS "id=") with
          | some r2 => some r2
          | none => dropLitS "id=" r1
        match afterId with
        | none => none
        | some r2 =>
          let g2 := r2.takeWhile isCodeCh
          if g2.isEmpty then none
          else some (jsReplaceChar (String.mk g2) '-' '_')
    else none
  | [] => none

/-- Generic pattern 3 at one position: `/[?&](sku)=([a-zA-Z0-9-_]+)/i`. -/
def genericP3At (s : List Char) : Option String :=
  match s with
  | c :: r =>
    if c = '?' ∨ c = '&' then
      match dropLitS "sku=" r with
      | none => none
      | some r2 =>
        let g2 := r2.takeWhile isCodeCh
        if g2.isEmpty then none
        else some (jsReplaceChar (String.mk g2) '-' '_')
    else none
  | [] => none

/-- `extractGenericProductCode`: the three ordered generic patterns. -/
def extractGenericProductCode (url : String) : Option String :=
  match scanFor genericP1At url.toList with
  | some r => some r
  | none =>
    match scanFor genericP2At url.toList with
    | some r => some r
    | none => scanFor genericP3At url.toList

/-- `extractProductCode`: dispatch on the detected brand. -/
def extractProductCode (url : String) : Option String :=
  match detectBrand url with
  | SupportedBrand.asics => extractAsicsProductCode url
  | SupportedBrand.bottegaVeneta => extractBottegaVenetaProductCode url
  | SupportedBrand.unknown => extractGenericProductCode url

/-! ### Exact-string deduplication

`Array.from(new Set(xs))`: a JavaScript `Set` iterates in insertion order, so
the conversion keeps the first occurrence of each element, in order. -/

/-- Worker for `dedup`, carrying the set of already-seen elements. -/
def dedupGo (seen : List String) : List String → List String
  | [] => []
  | x :: xs => if x ∈ seen then dedupGo seen xs else x :: dedupGo (x :: seen) xs

/-- `Array.from(new Set(xs))`. -/
def dedup (xs : List String) : List String := dedupGo [] xs

/-! ### Candidate-URL generation -/

/-- `generateAsicsImageUrls`: the ASICS cross products, in source push order,
deduplicated at the end. -/
def generateAsicsImageUrls (productCode : String) : List String :=
  let baseUrl := "https://images.asics.com/is/image/asics/"
  let basicViews := ["_SR_RT_GLB", "_SR_LT_GLB", "_SR_FR_GLB", "_SR_BK_GLB",
    "_SB_FL_GLB", "_SB_BT_GLB", "_SB_TP_GLB", "_SB_FR_GLB", "_SB_BK_GLB",
    "_FL_RT_GLB", "_FL_LT_GLB", "_FL_FR_GLB", "_FL_BK_GLB", ""]
  let detailedViews := ["_SR_RT", "_SR_LT", "_SR_FR", "_SR_BK", "_SB_FL",
    "_SB_BT", "_SB_TP", "_SB_FR", "_SB_BK", "_SB_RT", "_SB_LT", "_TP_RT",
    "_TP_LT", "_TP_FR", "_TP_BK", "_IN_RT", "_IN_LT", "_DT_RT", "_DT_LT",
    "_DT_FR", "_PT_1", "_PT_2", "_PT_3", "_PT_4", "_CL_1", "_CL_2", "_WR_1",
    "_WR_2", "_PR_RT", "_PR_LT", "_PR_FR", "_PR_BK", "_1", "_2", "_3", "_4", "_5"]
  let regionSuffixes := ["_GLB", "_US", "_EU", "_JP", "_AP", ""]
  let formats := ["?$zoom$", "?$sfcc-product$", "?$sfcc-product-900x900$",
    "?$sfcc-product-600x600$", "?$sfcc-product-300x300$", "?$sfcc-pdp-main$",
    "?$sfcc-pdp-zoom$", "?$productc$", "?$large$", "?$medium$", "?$small$", ""]
  let productCodeVariations := [productCode, jsReplaceChar productCode '_' '-']
  let urls :=
    (productCodeVariations.flatMap fun code =>
      basicViews.flatMap fun view =>
        formats.map fun format => baseUrl ++ code ++ view ++ format)
    ++ (productCodeVariations.flatMap fun code =>
      detailedViews.flatMap fun view =>
        regionSuffixes.flatMap fun region =>
          (formats.take 3).map fun format => baseUrl ++ code ++ view ++ region ++ format)
    ++ [baseUrl ++ productCode ++ "_SR_RT_GLB?width=600&height=600&fmt=jpeg",
        baseUrl ++ productCode ++ "_SR_RT_GLB?width=900&height=900&fmt=jpeg",
        baseUrl ++ productCode ++ "_SR_RT_GLB?width=1200&height=1200&fmt=jpeg",
        baseUrl ++ productCode ++ "_SR_RT_GLB?width=1800&height=1800&fmt=jpeg"]
    ++ (["RUNNING", "SPORTSTYLE", "PERFORMANCE", "TIGER", "ONITSUKA"].flatMap fun collection =>
        [baseUrl ++ productCode ++ "_" ++ collection ++ "_RT" ++ formats.headD "",
         baseUrl ++ productCode ++ "_" ++ collection ++ "_FR" ++ formats.headD ""])
  dedup urls

/-- `generateBottegaVenetaImageUrls`: the Bottega Veneta cross products, in
source push order, deduplicated at the end. -/
def generateBottegaVenetaImageUrls (productCode : String) : List String :=
  let baseUrls := [
    "https://www.bottegaveneta.com/dw/image/v2/BFMR_PRD/on/demandware.static/-/Sites-master-catalog/default/",
    "https://media.bottegaveneta.com/content/dam/bottegaveneta/",
    "https://image.bottegaveneta.com/product/",
    "https://production-na01-bottegaveneta.demandware.net/s/BottegaVeneta/dw/image/v2/BFMR_PRD/on/demandware.static/-/Sites-master-catalog/default/"]
  let productCodeVariations := [productCode, jsReplaceChar productCode '_' '-',
    lowerStr productCode, upperStr productCode]
  let views := ["_F", "_B", "_S", "_D", "_L", "_R",
    "_01", "_02", "_03", "_04", "_05", "_06", "_07", "_08", "_09", "_10",
    "_RW", "_FW", "_SW", "_BW", "_CL", "_DT", "_ZM", "_AC",
    "", "/F", "/B", "/S", "/D", "/L", "/R",
    "/01", "/02", "/03", "/04", "/05", "/06", "/07", "/08", "/09", "/10"]
  let formats := ["$zoom$", "$large$", "$medium$", "$small$",
    "?$zoom$", "?$large$", "?$medium$", "?$small$",
    "/w_1800,h_1800,c_fill/", "/w_1200,h_1200,c_fill/", "/w_900,h_900,c_fill/", ""]
  let urls :=
    (baseUrls.flatMap fun baseUrl =>
      productCodeVariations.flatMap fun codeVariation =>
        views.flatMap fun view =>
          formats.flatMap fun format =>
            [baseUrl ++ codeVariation ++ view ++ "/" ++ format ++ codeVariation ++ ".jpg",
             baseUrl ++ codeVariation ++ view ++ "/" ++ format ++ codeVariation ++ ".png"]
            ++ (if jsStartsWith format "?" then
                  [baseUrl ++ codeVariation ++ view ++ ".jpg" ++ format,
                   baseUrl ++ codeVariation ++ view ++ ".png" ++ format]
                else [])
            ++ [baseUrl ++ codeVariation ++ "/images/" ++ view ++ ".jpg",
                baseUrl ++ codeVariation ++ "/images/" ++ view ++ ".png",
                baseUrl ++ codeVariation ++ "/media/" ++ view ++ ".jpg",
                baseUrl ++ codeVariation ++ "/media/" ++ view ++ ".png"])
    ++ (["https://www.bottegaveneta.com/on/demandware.static/-/Library-Sites-bottegaveneta-content/default/images/products/" ++ productCode ++ "/",
         "https://media.bottegaveneta.com/content/dam/bottegaveneta/collections/" ++ productCode ++ "/",
         "https://assets.bottegaveneta.com/product/" ++ productCode ++ "/lookbook/"].flatMap fun pattern =>
        (List.range 10).flatMap fun i =>
          [pattern ++ "lookbook_" ++ toString (i + 1) ++ ".jpg",
           pattern ++ "look_" ++ toString (i + 1) ++ ".jpg",
           pattern ++ "model_" ++ toString (i + 1) ++ ".jpg"])
  dedup urls

/-- Worker for `extractPossibleBrandNames`: the maximal alphabetic runs of a
string, in order (`productCode.match(/([a-zA-Z]+)/g)`). -/
def alphaRunsGo (cur : List Char) : List Char → List String
  | [] => if cur.isEmpty then [] else [String.mk cur.reverse]
  | c :: rest =>
    if c.isAlpha then alphaRunsGo (c :: cur) rest
    else if cur.isEmpty then alphaRunsGo [] rest
    else String.mk cur.reverse :: alphaRunsGo [] rest

/-- `extractPossibleBrandNames`: a fixed default vocabulary plus the
lower-cased alphabetic runs of length at least 3 found in the product code. -/
def extractPossibleBrandNames (productCode : String) : List String :=
  let brands := ["brand", "fashion", "luxury", "apparel", "clothing", "shoes"]
  brands ++ ((alphaRunsGo [] productCode.toList).filter (fun m => 3 ≤ m.length)).map lowerStr

/-- `generateGenericBrandImageUrls`: generic CDN patterns with a `{brand}`
placeholder, in source push order, deduplicated at the end. -/
def generateGenericBrandImageUrls (productCode : String) : List String :=
  let productCodeVariations := [productCode, jsReplaceChar productCode '_' '-',
    lowerStr productCode, upperStr productCode]
  let cdnPatterns := [
    "https://images.{brand}.com/is/image/{brand}/",
    "https://assets.{brand}.com/images/products/",
    "https://media.{brand}.com/i/",
    "https://resources.{brand}.com/i/",
    "https://www.{brand}.com/images/products/",
    "https://cdn.{brand}.com/products/",
    "https://product-images.{brand}.com/"]
  let possibleBrands := extractPossibleBrandNames productCode
  let views := ["_1", "_2", "_3", "_main", "_front", "_back", "_side",
    "_detail", "_alt", ""]
  let extensions := [".jpg", ".jpeg", ".png", ".webp"]
  let sizeParams := ["?w=1200&h=1200", "?width=800&height=800", "?size=large",
    "?fmt=webp", ""]
  let urls :=
    possibleBrands.flatMap fun brand =>
      cdnPatterns.flatMap fun pattern =>
        let baseUrl := jsReplaceSeq pattern "{brand}" brand
        productCodeVariations.flatMap fun code =>
          views.flatMap fun view =>
            extensions.flatMap fun ext =>
              sizeParams.map fun size => baseUrl ++ code ++ view ++ ext ++ size
  dedup urls

/-- `generateImageUrls`: dispatch on the brand. -/
def generateImageUrls (productCode : String) (brand : SupportedBrand) : List String :=
  match brand with
  | SupportedBrand.asics => generateAsicsImageUrls productCode
  | SupportedBrand.bottegaVeneta => generateBottegaVenetaImageUrls productCode
  | SupportedBrand.unknown => generateGenericBrandImageUrls productCode

/-! ### A model of the WHATWG URL constructor

`new URL(s)` is a JavaScript platform builtin (not repository code).  The
model below covers what the source relies on: parsing fails (the constructor
throws) exactly when `parseURL` returns `none` — in particular for any string
with no scheme (e.g. a relative path such as `/images/x.jpg`) — and for an
absolute `scheme://host/...` URL it yields the lower-cased host name without
userinfo or port. -/

/-- The components of a parsed URL used by the source (`hostname`). -/
structure URLParts where
  scheme : String
  hostname : String
deriving DecidableEq

/-- Characters allowed in a URL scheme after the first letter. -/
def isSchemeCh (c : Char) : Bool := c.isAlpha || c.isDigit || c = '+' || c = '-' || c = '.'

/-- Model of `new URL(s)`: `none` means the constructor throws. -/
def parseURL (s : String) : Option URLParts :=
  match s.toList with
  | [] => none
  | c :: rest =>
    if c.isAlpha then
      match rest.dropWhile isSchemeCh with
      | ':' :: r2 =>
        let scheme := String.mk (lowCh c :: (rest.takeWhile isSchemeCh).map lowCh)
        match r2 with
        | '/' :: '/' :: r3 =>
          let auth := r3.takeWhile (fun ch => ¬ (ch = '/' ∨ ch = '?' ∨ ch = '#'))
          let afterAt := if auth.contains '@' then (auth.reverse.takeWhile (· ≠ '@')).reverse else auth
          let host := afterAt.takeWhile (· ≠ ':')
          if host.isEmpty then none
          else some { scheme := scheme, hostname := String.mk (host.map lowCh) }
        | _ => some { scheme := scheme, hostname := "" }
      | _ => none
    else none

/-! ### Existence validation (`checkImageExists`, `checkBatchImageUrls`) -/

/-- The response fields `checkImageExists` looks at.  `status` is the HTTP
status of the final response after redirect following, `contentType` the
`content-type` header (absent headers are `none`), `data` the body bytes. -/
structure ProbeResponse where
  status : Nat
  contentType : Option String
  data : List Nat
deriving DecidableEq

/-- `checkImageExists`: the argument is the outcome of the axios GET for the
URL; `Except.error` models a network error, timeout, or a status of 400 or
more rejected by `validateStatus` — every such rejection is caught and turns
into `false`.  On an accepted response, validity is the `image/` content type
or (for a body longer than four bytes) a JPEG, PNG, or GIF magic number. -/
def checkImageExists (probed : Except Unit ProbeResponse) : Bool :=
  match probed with
  | Except.error _ => false
  | Except.ok resp =>
    if resp.status < 400 then
      let isImage :=
        match resp.contentType with
        | some ct => jsStartsWith ct "image/"
        | none => false
      if ¬ isImage = true ∧ 4 < resp.data.length then
        if resp.data.getD 0 0 = 0xFF ∧ resp.data.getD 1 0 = 0xD8 ∧ resp.data.getD 2 0 = 0xFF then
          true
        else if resp.data.getD 0 0 = 0x89 ∧ resp.data.getD 1 0 = 0x50 ∧
            resp.data.getD 2 0 = 0x4E ∧ resp.data.getD 3 0 = 0x47 then
          true
        else if resp.data.getD 0 0 = 0x47 ∧ resp.data.getD 1 0 = 0x49 ∧
            resp.data.getD 2 0 = 0x46 ∧ resp.data.getD 3 0 = 0x38 then
          true
        else isImage
      else isImage
    else false

/-- The batches of `checkBatchImageUrls`: `urls.slice(i, i + 5)` for
`i = 0, 5, 10, ...` (`MAX_PARALLEL_REQUESTS = 5`). -/
def toBatches : List String → List (List String)
  | [] => []
  | [a] => [[a]]
  | [a, b] => [[a, b]]
  | [a, b, c] => [[a, b, c]]
  | [a, b, c, d] => [[a, b, c, d]]
  | a :: b :: c :: d :: e :: rest => [a, b, c, d, e] :: toBatches rest

/-- `checkBatchImageUrls`: batches run sequentially; within a batch the five
checks run under `Promise.all` (each check resolves on its own — a `false`
result never rejects), and the urls found valid are pushed in batch order.
`check` is the per-URL outcome of `checkImageExists`. -/
def checkBatchImageUrls (check : String → Bool) (urls : List String) : List String :=
  ((toBatches urls).map (fun batch => batch.filter check)).flatten

/-! ### Page scraping (`scrapeImagesFromPage`)

The axios fetch of the page plus the cheerio extraction
(`scrapeAsicsImages` / `scrapeBottegaVenetaImages` / `scrapeGenericImages`)
is network- and DOM-bound; it is modelled by its outcome: `Except.error ()`
when the fetch fails (the catch of the source returns `[]` then), and
`Except.ok urls` with the extracted candidate URLs otherwise. -/

/-- `scrapeImagesFromPage` given the fetch/extraction outcome. -/
def scrapeImagesFromPage (fetched : Except Unit (List String)) : List String :=
  match fetched with
  | Except.error _ => []
  | Except.ok urls => urls

/-! ### Similarity predicates -/

/-- The structural signature `extractPattern` of `areSimilarAsicsImageUrls`
pulls from a URL: product code, view type, angle. -/
structure AsicsUrlPattern where
  productCode : String
  viewType : String
  angle : String
deriving DecidableEq

/-- The optional group `(?:_([A-Z]{2})_([A-Z]{2})(?:_([A-Z]{2,3}))?)?` of
`extractPattern`, attempted after the greedy product-code run.  The trailing
`(?:_([A-Z]{2,3}))?` group would be capture 4, which the source never reads,
so only the first two groups are returned. -/
def asicsViewAngleAt (s : List Char) : Option (String × String) :=
  match s with
  | '_' :: r =>
    match takeN 2 isAlphaCh r with
    | none => none
    | some (vt, r1) =>
      match r1 with
      | '_' :: r2 =>
        match takeN 2 isAlphaCh r2 with
        | none => none
        | some (ang, _) => some (String.mk vt, String.mk ang)
      | _ => none
  | _ => none

/-- `extractPattern` of `areSimilarAsicsImageUrls`:
`/asics\/([A-Z0-9_-]+)(?:_([A-Z]{2})_([A-Z]{2})(?:_([A-Z]{2,3}))?)?/i`.
Because `_` belongs to the class `[A-Z0-9_-]`, the greedy `+` swallows any
`_XX_YY` tail, the character after the maximal run is never `_`, and the
optional group therefore always matches empty (`match[2]`/`match[3]` are
`undefined`, read back as `''`); the attempt is still made, mirroring the
regex. -/
def asicsExtractPattern (url : String) : Option AsicsUrlPattern :=
  scanFor (fun s =>
    match dropLitS "asics/" s with
    | none => none
    | some r =>
      let run := r.takeWhile isCodeCh
      if run.isEmpty then none
      else
        let rest := r.dropWhile isCodeCh
        match asicsViewAngleAt rest with
        | some (vt, ang) =>
          some { productCode := String.mk run, viewType := vt, angle := ang }
        | none => some { productCode := String.mk run, viewType := "", angle := "" })
    url.toList

/-- `areSimilarAsicsImageUrls`: same code, view type and angle — or same code
with both angles (or both view types) missing. -/
def areSimilarAsicsImageUrls (url1 url2 : String) : Bool :=
  match asicsExtractPattern url1, asicsExtractPattern url2 with
  | some p1, some p2 =>
    if p1.productCode = p2.productCode ∧ p1.angle = p2.angle ∧ p1.viewType = p2.viewType then
      true
    else if p1.productCode = p2.productCode ∧
        ((p1.angle = "" ∧ p2.angle = "") ∨ (p1.viewType = "" ∧ p2.viewType = "")) then
      true
    else false
  | _, _ => false

/-- First alternative list of `extractViewCode`:
`/_(F|B|S|D|L|R|[0-9]{2}|DT|CL|ZM)/i`, alternatives in source order (so the
single letter `D` shadows `DT`); returns the matched text after the `_`. -/
def bvViewAlt1 (r : List Char) : Option (List Char) :=
  match r with
  | [] => none
  | [c] =>
    if lowCh c = 'f' ∨ lowCh c = 'b' ∨ lowCh c = 's' ∨ lowCh c = 'd' ∨
        lowCh c = 'l' ∨ lowCh c = 'r' then some [c]
    else none
  | c :: c2 :: _ =>
    if lowCh c = 'f' ∨ lowCh c = 'b' ∨ lowCh c = 's' ∨ lowCh c = 'd' ∨
        lowCh c = 'l' ∨ lowCh c = 'r' then some [c]
    else if c.isDigit ∧ c2.isDigit then some [c, c2]
    else if lowCh c = 'd' ∧ lowCh c2 = 't' then some [c, c2]
    else if lowCh c = 'c' ∧ lowCh c2 = 'l' then some [c, c2]
    else if lowCh c = 'z' ∧ lowCh c2 = 'm' then some [c, c2]
    else none

/-- Second alternative list of `extractViewCode`:
`/\/(F|B|S|D|L|R|[0-9]{2})/i`; returns the captured group (without the `/`). -/
def bvViewAlt2 (r : List Char) : Option (List Char) :=
  match r with
  | [] => none
  | [c] =>
    if lowCh c = 'f' ∨ lowCh c = 'b' ∨ lowCh c = 's' ∨ lowCh c = 'd' ∨
        lowCh c = 'l' ∨ lowCh c = 'r' then some [c]
    else none
  | c :: c2 :: _ =>
    if lowCh c = 'f' ∨ lowCh c = 'b' ∨ lowCh c = 's' ∨ lowCh c = 'd' ∨
        lowCh c = 'l' ∨ lowCh c = 'r' then some [c]
    else if c.isDigit ∧ c2.isDigit then some [c, c2]
    else none

/-- `extractViewCode` of `areSimilarBottegaVenetaImageUrls`: pattern 1 returns
`match[0].toUpperCase()` (underscore included), pattern 2 returns
`'_' + match[1].toUpperCase()`. -/
def extractViewCode (url : String) : Option String :=
  match scanFor (fun s =>
      match s with
      | '_' :: r => (bvViewAlt1 r).map (fun g => upperStr (String.mk ('_' :: g)))
      | _ => none) url.toList with
  | some m => some m
  | none =>
    scanFor (fun s =>
      match s with
      | '/' :: r => (bvViewAlt2 r).map (fun g => "_" ++ upperStr (String.mk g))
      | _ => none) url.toList

/-- `extractSize` of `areSimilarBottegaVenetaImageUrls`:
`/\$(zoom|large|medium|small)\$/i` (group lower-cased) falling back to
`/w_(\d+),h_\d+/i` (digits as matched), else `''`.  The size keyword is
returned canonically lower-case because the source applies `toLowerCase()`. -/
def extractSize (url : String) : String :=
  match scanFor (fun s =>
      match s with
      | '$' :: r =>
        match dropLitS "zoom$" r with
        | some _ => some "zoom"
        | none =>
          match dropLitS "large$" r with
          | some _ => some "large"
          | none =>
            match dropLitS "medium$" r with
            | some _ => some "medium"
            | none =>
              match dropLitS "small$" r with
              | some _ => some "small"
              | none => none
      | _ => none) url.toList with
  | some k => k
  | none =>
    match scanFor (fun s =>
        match s with
        | c :: r =>
          if lowCh c = 'w' then
            match r with
            | '_' :: r2 =>
              let d1 := r2.takeWhile isDigitCh
              let r3 := r2.dropWhile isDigitCh
              if d1.isEmpty then none
              else
                match r3 with
                | ',' :: r4 =>
                  match r4 with
                  | ch :: r5 =>
                    if lowCh ch = 'h' then
                      match r5 with
                      | '_' :: r6 =>
                        if (r6.takeWhile isDigitCh).isEmpty then none
                        else some (String.mk d1)
                      | _ => none
                    else none
                  | [] => none
                | _ => none
            | _ => none
          else none
        | [] => none) url.toList with
    | some d => d
    | none => ""

/-- `areSimilarBottegaVenetaImageUrls`.  After the equality and view-code
checks the source computes `size1`/`size2` (unused) and then dereferences
`new URL(url1).hostname` and `new URL(url2).hostname` without a guard: an
unparseable URL makes the predicate throw, modelled as `Except.error ()`. -/
def areSimilarBottegaVenetaImageUrls (url1 url2 : String) : Except Unit Bool :=
  if url1 = url2 then Except.ok true
  else
    let viewCode1 := extractViewCode url1
    let viewCode2 := extractViewCode url2
    if viewCode1.isSome ∧ viewCode2.isSome ∧ viewCode1 ≠ viewCode2 then
      Except.ok false
    else
      -- size1 and size2 are computed in the source but never used afterwards
      let _size1 := extractSize url1
      let _size2 := extractSize url2
      match parseURL url1 with
      | none => Except.error ()
      | some u1 =>
        match parseURL url2 with
        | none => Except.error ()
        | some u2 =>
          if u1.hostname = u2.hostname ∧ viewCode1 = none ∧ viewCode2 = none then
            Except.ok true
          else
            Except.ok false

/-- `stripQueryAndSize` of `areSimilarGenericImageUrls`: drop the query
string, then `replace(/(_\d+x\d+)(\.[a-z]+)$/i, kept-extension)`.  The
anchored suffix pattern is parsed deterministically from the end (extension
letters, dot, digits, `x`, digits, `_`); this agrees with the regex because
`\d+` cannot contain `x` or `.` and the match must start at a literal `_`. -/
def stripQueryAndSize (url : String) : String :=
  let stripped := String.mk (url.toList.takeWhile (· ≠ '?'))
  let cs := stripped.toList.reverse
  let ext := cs.takeWhile isAlphaCh
  let r1 := cs.dropWhile isAlphaCh
  if ext.isEmpty then stripped
  else
    match r1 with
    | '.' :: r2 =>
      let d2 := r2.takeWhile isDigitCh
      let r3 := r2.dropWhile isDigitCh
      if d2.isEmpty then stripped
      else
        match r3 with
        | cx :: r4 =>
          if lowCh cx = 'x' then
            let d1 := r4.takeWhile isDigitCh
            let r5 := r4.dropWhile isDigitCh
            if d1.isEmpty then stripped
            else
              match r5 with
              | '_' :: r6 => String.mk (r6.reverse ++ '.' :: ext.reverse)
              | _ => stripped
          else stripped
        | [] => stripped
    | _ => stripped

/-- `getFilename` of `areSimilarGenericImageUrls`: the part after the last
`/` (the whole string when there is none), with any query suffix dropped. -/
def getFilename (url : String) : String :=
  let lastSegment := (url.toList.reverse.takeWhile (· ≠ '/')).reverse
  String.mk (lastSegment.takeWhile (· ≠ '?'))

/-- `areSimilarGenericImageUrls`: equal stripped URLs, or equal bare file
names before the first dot. -/
def areSimilarGenericImageUrls (url1 url2 : String) : Bool :=
  let base1 := stripQueryAndSize url1
  let base2 := stripQueryAndSize url2
  if base1 = base2 then true
  else
    let file1 := getFilename url1
    let file2 := getFilename url2
    if file1.toList.takeWhile (· ≠ '.') = file2.toList.takeWhile (· ≠ '.') then true
    else false

/-- `areSimilarImageUrls`: exact equality short-circuits, then the brand
dispatch.  Only the Bottega Veneta predicate can throw. -/
def areSimilarImageUrls (url1 url2 : String) (brand : SupportedBrand) : Except Unit Bool :=
  if url1 = url2 then Except.ok true
  else
    match brand with
    | SupportedBrand.asics => Except.ok (areSimilarAsicsImageUrls url1 url2)
    | SupportedBrand.bottegaVeneta => areSimilarBottegaVenetaImageUrls url1 url2
    | SupportedBrand.unknown => Except.ok (areSimilarGenericImageUrls url1 url2)

/-! ### Similarity clustering (`filterSimilarUrls`) -/

/-- `getResolutionPriority` of `filterSimilarUrls`. -/
def getResolutionPriority (url : String) : Nat :=
  if jsIncludes url "zoom" then 5
  else if jsIncludes url "1800" then 4
  else if jsIncludes url "1200" then 3
  else if jsIncludes url "900" then 2
  else if jsIncludes url "600" then 1
  else 0

/-- `group.sort((a, b) => getResolutionPriority(b) - getResolutionPriority(a))`:
`Array.prototype.sort` is stable (ES2019), so this is a stable descending sort
by priority, modelled with Mathlib's (stable) insertion sort. -/
def sortByPriorityDesc (group : List String) : List String :=
  group.insertionSort (fun a b => getResolutionPriority b ≤ getResolutionPriority a)

/-- Per-cluster representative: sort by priority (descending, stable) and
take the first element (`group[0]` after the sort; groups are never empty). -/
def pickRepresentative (group : List String) : String :=
  (sortByPriorityDesc group).headD ""

/-- The inner loop of `filterSimilarUrls`: scan the whole url list and absorb
into the cluster of `seed` every url that is not the seed, not yet processed,
and similar to the seed, marking it processed at once.  Returns the absorbed
urls in scan order together with the updated processed set.  A thrown
similarity error aborts the whole clustering. -/
def absorbLoop (brand : SupportedBrand) (seed : String) :
    List String → List String → Except Unit (List String × List String)
  | [], processed => Except.ok ([], processed)
  | other :: rest, processed =>
    if other = seed ∨ other ∈ processed then
      absorbLoop brand seed rest processed
    else
      match areSimilarImageUrls seed other brand with
      | Except.error e => Except.error e
      | Except.ok true =>
        match absorbLoop brand seed rest (other :: processed) with
        | Except.error e => Except.error e
        | Except.ok (g, p) => Except.ok (other :: g, p)
      | Except.ok false => absorbLoop brand seed rest processed

/-- The outer loop of `filterSimilarUrls`: iterate the urls in order; each
still-unprocessed url opens a cluster (it is marked processed before the
inner scan, as in the source) whose members are collected by `absorbLoop`
over the full url list.  The clusters appear in seed order, as the string
keys of the `groups` record do (URL keys are never array-index-like, so
`for...in` iterates them in insertion order). -/
def clusterLoop (brand : SupportedBrand) (all : List String) :
    List String → List String → Except Unit (List (List String))
  | [], _ => Except.ok []
  | url :: rest, processed =>
    if url ∈ processed then clusterLoop brand all rest processed
    else
      match absorbLoop brand url all (url :: processed) with
      | Except.error e => Except.error e
      | Except.ok (g, p) =>
        match clusterLoop brand all rest p with
        | Except.error e => Except.error e
        | Except.ok gs => Except.ok ((url :: g) :: gs)

/-- The clusters `filterSimilarUrls` builds from a candidate list. -/
def clusterGroups (urls : List String) (brand : SupportedBrand) :
    Except Unit (List (List String)) :=
  clusterLoop brand urls urls []

/-- `filterSimilarUrls`: lists of at most one url are returned unchanged;
otherwise cluster and map every cluster to its representative. -/
def filterSimilarUrls (urls : List String) (brand : SupportedBrand) :
    Except Unit (List String) :=
  if urls.length ≤ 1 then Except.ok urls
  else
    match clusterGroups urls brand with
    | Except.error e => Except.error e
    | Except.ok gs => Except.ok (gs.map pickRepresentative)

/-! ### The orchestrator (`getImagesFromUrl`) and the RPC entry (`getImages`) -/

/-- The `ImageInfo` record of the source (`width`/`height` are fixed
placeholder strings). -/
structure ImageInfo where
  src : String
  width : String
  height : String
  alt : String
deriving DecidableEq

/-- `validUrls.map((src, index) => ({...}))`: build the final records with a
1-based index in the generated `alt` text. -/
def toImageInfos (productCode : String) : Nat → List String → List ImageInfo
  | _, [] => []
  | i, src :: rest =>
    { src := src, width := "640", height := "480",
      alt := "商品画像 " ++ toString (i + 1) ++ " - " ++ productCode }
      :: toImageInfos productCode (i + 1) rest

/-- The body of `getImagesFromUrl` before its top-level catch.  A missing
product code returns `[]` immediately (page scraping is not reached); a
thrown clustering error propagates to the catch. -/
def getImagesFromUrlCore (url : String) (fetched : Except Unit (List String))
    (probe : String → Except Unit ProbeResponse) : Except Unit (List ImageInfo) :=
  match extractProductCode url with
  | none => Except.ok []
  | some productCode =>
    let brand := detectBrand url
    let generatedUrls := generateImageUrls productCode brand
    let scrapedUrls := scrapeImagesFromPage fetched
    let allUrls := generatedUrls ++ scrapedUrls
    let uniqueUrls := dedup allUrls
    match filterSimilarUrls uniqueUrls brand with
    | Except.error e => Except.error e
    | Except.ok filteredUrls =>
      let validUrls := checkBatchImageUrls (fun u => checkImageExists (probe u)) filteredUrls
      Except.ok (toImageInfos productCode 0 validUrls)

/-- `getImagesFromUrl`: the exported orchestrator; its top-level
`try ... catch` turns any internal error into `[]`. -/
def getImagesFromUrl (url : String) (fetched : Except Unit (List String))
    (probe : String → Except Unit ProbeResponse) : List ImageInfo :=
  match getImagesFromUrlCore url fetched probe with
  | Except.error _ => []
  | Except.ok images => images

/-- The tRPC `downloadImage.getImages` procedure: the zod input schema
`z.string().url()` rejects a malformed URL before the pipeline runs (the
InputError surfaced to the caller, modelled with `parseURL`); on a valid URL
the procedure resolves with the pipeline's image list. -/
def getImages (url : String) (fetched : Except Unit (List String))
    (probe : String → Except Unit ProbeResponse) : Except Unit (List ImageInfo) :=
  match parseURL url with
  | none => Except.error ()
  | some _ => Except.ok (getImagesFromUrl url fetched probe)

/-! ### Lemmas: deduplication -/

/-- `dedupGo` produces a duplicate-free list avoiding the seen set. -/
theorem dedupGo_nodup_avoids :
    ∀ (l seen : List String),
      (dedupGo seen l).Nodup ∧ ∀ x ∈ dedupGo seen l, x ∉ seen := by
  intro l
  induction l with
  | nil => intro seen; exact ⟨List.nodup_nil, by intro x hx; simp [dedupGo] at hx⟩
  | cons x xs ih =>
    intro seen
    by_cases hx : x ∈ seen
    · simpa [dedupGo, hx] using ih seen
    · obtain ⟨hnd, havoid⟩ := ih (x :: seen)
      refine ⟨?_, ?_⟩
      · simp only [dedupGo, if_neg hx]
        refine List.nodup_cons.mpr ⟨?_, hnd⟩
        intro hmem
        exact havoid x hmem (List.mem_cons_self x seen)
      · intro y hy
        simp only [dedupGo, if_neg hx] at hy
        rcases List.mem_cons.mp hy with rfl | hy2
        · exact hx
        · intro hyseen
          exact havoid y hy2 (List.mem_cons_of_mem x hyseen)

/-- The output of `dedup` is duplicate-free. -/
theorem dedup_nodup (xs : List String) : (dedup xs).Nodup :=
  (dedupGo_nodup_avoids xs []).1

/-- On a duplicate-free list disjoint from the seen set, `dedupGo` is the
identity. -/
theorem dedupGo_eq_self :
    ∀ (l seen : List String), l.Nodup → (∀ x ∈ l, x ∉ seen) → dedupGo seen l = l := by
  intro l
  induction l with
  | nil => intro seen _ _; rfl
  | cons x xs ih =>
    intro seen hnd hdisj
    have hx : x ∉ seen := hdisj x (List.mem_cons_self x xs)
    simp only [dedupGo, if_neg hx, List.cons.injEq, true_and]
    apply ih (x :: seen) (List.Nodup.of_cons hnd)
    intro y hy
    intro hmem
    rcases List.mem_cons.mp hmem with rfl | hyseen
    · exact (List.nodup_cons.mp hnd).1 hy
    · exact hdisj y (List.mem_cons_of_mem x hy) hyseen

/-- C8: exact-string deduplication (Set round-trip, first occurrence kept) is
idempotent: `dedup (dedup xs) = dedup xs` for every url sequence. -/
theorem dedup_idempotent (xs : List String) : dedup (dedup xs) = dedup xs :=
  dedupGo_eq_self (dedup xs) [] (dedup_nodup xs) (by intro x _ h; cases h)

/-! ### Lemmas: batching -/

/-- Concatenating the batches gives back the input, in order. -/
theorem toBatches_flatten_aux :
    ∀ (n : Nat) (l : List String), l.length ≤ n → (toBatches l).flatten = l := by
  intro n
  induction n with
  | zero =>
    intro l hl
    have hnil : l = [] := List.length_eq_zero.mp (Nat.le_zero.mp hl)
    subst hnil
    rfl
  | succ m ih =>
    intro l hl
    rcases l with _ | ⟨a, _ | ⟨b, _ | ⟨c, _ | ⟨d, _ | ⟨e, rest⟩⟩⟩⟩⟩
    · rfl
    · rfl
    · rfl
    · rfl
    · rfl
    · have hr : rest.length ≤ m := by
        simp only [List.length_cons] at hl
        omega
      simp [toBatches, ih rest hr]

/-- Concatenating the batches gives back the input, in order. -/
theorem toBatches_flatten (l : List String) : (toBatches l).flatten = l :=
  toBatches_flatten_aux l.length l le_rfl

/-- There are exactly `⌈n / 5⌉` batches. -/
theorem toBatches_length_aux :
    ∀ (n : Nat) (l : List String), l.length ≤ n →
      (toBatches l).length = (l.length + 4) / 5 := by
  intro n
  induction n with
  | zero =>
    intro l hl
    have hnil : l = [] := List.length_eq_zero.mp (Nat.le_zero.mp hl)
    subst hnil
    rfl
  | succ m ih =>
    intro l hl
    rcases l with _ | ⟨a, _ | ⟨b, _ | ⟨c, _ | ⟨d, _ | ⟨e, rest⟩⟩⟩⟩⟩
    · simp [toBatches]
    · simp [toBatches]
    · simp [toBatches]
    · simp [toBatches]
    · simp [toBatches]
    · have hr : rest.length ≤ m := by
        simp only [List.length_cons] at hl
        omega
      simp only [toBatches, List.length_cons, ih rest hr]
      have h5 : rest.length + 1 + 1 + 1 + 1 + 1 + 4 = rest.length + 4 + 5 := by omega
      rw [h5, Nat.add_div_right _ (by norm_num : 0 < 5)]

/-- There are exactly `⌈n / 5⌉` batches. -/
theorem toBatches_length (l : List String) :
    (toBatches l).length = (l.length + 4) / 5 :=
  toBatches_length_aux l.length l le_rfl

/-- Filtering batchwise and flattening is filtering the flattened list. -/
theorem flatten_map_filter (p : String → Bool) :
    ∀ (ls : List (List String)),
      ((ls.map (fun b => b.filter p)).flatten) = ls.flatten.filter p := by
  intro ls
  induction ls with
  | nil => rfl
  | cons b bs ih =>
    simp only [List.map_cons, List.flatten_cons, List.filter_append, ih]

/-- `checkBatchImageUrls` keeps exactly the urls whose own check succeeds, in
input order: no early termination, and no check outcome influences another. -/
theorem checkBatchImageUrls_eq_filter (check : String → Bool) (urls : List String) :
    checkBatchImageUrls check urls = urls.filter check := by
  unfold checkBatchImageUrls
  rw [flatten_map_filter, toBatches_flatten]

/-- Destructuring helper: a list of length `n + 1` is a cons. -/
theorem listLenSucc {α : Type} {l : List α} {n : Nat} (h : l.length = n + 1) :
    ∃ a t, l = a :: t ∧ t.length = n := by
  cases l with
  | nil => simp at h
  | cons a t => exact ⟨a, t, rfl, by simpa using h⟩

/-- C5: the existence validator partitions its input in order into
`⌈n / 5⌉` batches (for 12 urls: sizes 5, 5, 2); batches are sequential, all
run to completion, and each url's survival depends only on its own check, so
a failing check never blocks its batch siblings. -/
theorem validator_batching (urls : List String) (check : String → Bool) :
    (toBatches urls).flatten = urls ∧
    (toBatches urls).length = (urls.length + 4) / 5 ∧
    checkBatchImageUrls check urls = urls.filter check ∧
    (urls.length = 12 → (toBatches urls).map List.length = [5, 5, 2]) := by
  refine ⟨toBatches_flatten urls, toBatches_length urls,
    checkBatchImageUrls_eq_filter check urls, ?_⟩
  intro h12
  obtain ⟨a1, l1, rfl, h1⟩ := listLenSucc (n := 11) h12
  obtain ⟨a2, l2, rfl, h2⟩ := listLenSucc (n := 10) h1
  obtain ⟨a3, l3, rfl, h3⟩ := listLenSucc (n := 9) h2
  obtain ⟨a4, l4, rfl, h4⟩ := listLenSucc (n := 8) h3
  obtain ⟨a5, l5, rfl, h5⟩ := listLenSucc (n := 7) h4
  obtain ⟨a6, l6, rfl, h6⟩ := listLenSucc (n := 6) h5
  obtain ⟨a7, l7, rfl, h7⟩ := listLenSucc (n := 5) h6
  obtain ⟨a8, l8, rfl, h8⟩ := listLenSucc (n := 4) h7
  obtain ⟨a9, l9, rfl, h9⟩ := listLenSucc (n := 3) h8
  obtain ⟨a10, l10, rfl, h10⟩ := listLenSucc (n := 2) h9
  obtain ⟨a11, l11, rfl, h11⟩ := listLenSucc (n := 1) h10
  obtain ⟨a12, l12, rfl, h12x⟩ := listLenSucc (n := 0) h11
  have hnil : l12 = [] := List.length_eq_zero.mp h12x
  subst hnil
  rfl

/-- C5 witness: the batching facts at a concrete 12-url list. -/
theorem validator_batching_witness :
    (toBatches ["u1","u2","u3","u4","u5","u6","u7","u8","u9","u10","u11","u12"]).map
      List.length = [5, 5, 2] ∧
    checkBatchImageUrls (fun u => jsIncludes u "1")
      ["u1","u2","u3","u4","u5","u6","u7","u8","u9","u10","u11","u12"] =
      (["u1","u2","u3","u4","u5","u6","u7","u8","u9","u10","u11","u12"].filter
        (fun u => jsIncludes u "1")) :=
  ⟨(validator_batching ["u1","u2","u3","u4","u5","u6","u7","u8","u9","u10","u11","u12"]
      (fun u => jsIncludes u "1")).2.2.2 (by decide),
   (validator_batching ["u1","u2","u3","u4","u5","u6","u7","u8","u9","u10","u11","u12"]
      (fun u => jsIncludes u "1")).2.2.1⟩

/-! ### Lemmas: representative selection -/

/-- The sorted cluster is a permutation of the cluster. -/
theorem sortByPriorityDesc_perm (g : List String) :
    List.Perm (sortByPriorityDesc g) g :=
  List.perm_insertionSort _ g

/-- The representative is a member of its (nonempty) cluster. -/
theorem pickRepresentative_mem {g : List String} (hg : g ≠ []) :
    pickRepresentative g ∈ g := by
  have hperm := sortByPriorityDesc_perm g
  cases hs : sortByPriorityDesc g with
  | nil =>
    exfalso
    have hlen := hperm.length_eq
    rw [hs] at hlen
    simp only [List.length_nil] at hlen
    exact hg (List.length_eq_zero.mp hlen.symm)
  | cons a t =>
    have hpick : pickRepresentative g = a := by
      simp [pickRepresentative, hs]
    rw [hpick]
    have hmem : a ∈ sortByPriorityDesc g := by
      rw [hs]; exact List.mem_cons_self a t
    exact hperm.mem_iff.mp hmem

/-- The representative has the maximal resolution priority of its cluster. -/
theorem pickRepresentative_max {g : List String} (y : String) (hy : y ∈ g) :
    getResolutionPriority y ≤ getResolutionPriority (pickRepresentative g) := by
  have hperm := sortByPriorityDesc_perm g
  have hsorted : List.Sorted
      (fun a b => getResolutionPriority b ≤ getResolutionPriority a)
      (sortByPriorityDesc g) := by
    unfold sortByPriorityDesc
    letI : IsTotal String (fun a b => getResolutionPriority b ≤ getResolutionPriority a) :=
      ⟨fun a b => (Nat.le_total (getResolutionPriority b) (getResolutionPriority a))⟩
    letI : IsTrans String (fun a b => getResolutionPriority b ≤ getResolutionPriority a) :=
      ⟨fun _ _ _ hab hbc => le_trans hbc hab⟩
    exact List.sorted_insertionSort _ g
  have hy' : y ∈ sortByPriorityDesc g := hperm.mem_iff.mpr hy
  cases hs : sortByPriorityDesc g with
  | nil => rw [hs] at hy'; cases hy'
  | cons a t =>
    rw [hs] at hy' hsorted
    have hpick : pickRepresentative g = a := by
      simp [pickRepresentative, hs]
    rw [hpick]
    rcases List.mem_cons.mp hy' with rfl | hyt
    · exact le_refl _
    · exact (List.sorted_cons.mp hsorted).1 y hyt

/-- A url containing `"zoom"` has priority 5, and priority 5 forces `"zoom"`. -/
theorem priority_five_iff_zoom (u : String) :
    getResolutionPriority u = 5 ↔ jsIncludes u "zoom" = true := by
  constructor
  · intro h
    by_contra hz
    rw [Bool.not_eq_true] at hz
    unfold getResolutionPriority at h
    rw [hz] at h
    simp only [Bool.false_eq_true, if_false] at h
    split_ifs at h <;> omega
  · intro h
    simp [getResolutionPriority, h]

/-- C3: for a cluster whose members contain the substrings `"zoom"`, `"1800"`,
`"900"`, `"600"` respectively, representative selection (stable descending
sort by resolution priority, pick first) chooses the url containing `"zoom"`;
the priority order is zoom > 1800 > 1200 > 900 > 600 > none. -/
theorem resolution_tiebreak_picks_zoom (u1 u2 u3 u4 : String)
    (h1 : jsIncludes u1 "zoom" = true) (h2 : jsIncludes u2 "1800" = true)
    (h3 : jsIncludes u3 "900" = true) (h4 : jsIncludes u4 "600" = true) :
    jsIncludes (pickRepresentative [u1, u2, u3, u4]) "zoom" = true ∧
    getResolutionPriority "zoom" = 5 ∧ getResolutionPriority "1800" = 4 ∧
    getResolutionPriority "1200" = 3 ∧ getResolutionPriority "900" = 2 ∧
    getResolutionPriority "600" = 1 ∧ getResolutionPriority "" = 0 := by
  refine ⟨?_, by decide, by decide, by decide, by decide, by decide, by decide⟩
  have h5 : getResolutionPriority u1 = 5 := (priority_five_iff_zoom u1).mpr h1
  have hmax := pickRepresentative_max (g := [u1, u2, u3, u4]) u1 (by simp)
  rw [h5] at hmax
  have hle : getResolutionPriority (pickRepresentative [u1, u2, u3, u4]) ≤ 5 := by
    unfold getResolutionPriority
    split_ifs <;> omega
  exact (priority_five_iff_zoom _).mp (by omega)

/-- C3 witness: the tie-break at four concrete urls. -/
theorem resolution_tiebreak_picks_zoom_witness :
    jsIncludes (pickRepresentative ["https://x/zoom.jpg", "https://x/a1800.jpg",
      "https://x/a900.jpg", "https://x/a600.jpg"]) "zoom" = true ∧
    getResolutionPriority "zoom" = 5 ∧ getResolutionPriority "1800" = 4 ∧
    getResolutionPriority "1200" = 3 ∧ getResolutionPriority "900" = 2 ∧
    getResolutionPriority "600" = 1 ∧ getResolutionPriority "" = 0 :=
  resolution_tiebreak_picks_zoom "https://x/zoom.jpg" "https://x/a1800.jpg"
    "https://x/a900.jpg" "https://x/a600.jpg"
    (by decide) (by decide) (by decide) (by decide)

/-! ### C4: the signature fallback of `checkImageExists` -/

/-- C4 counterexample: a status-200 response with no Content-Type whose body
is exactly the four PNG signature bytes is rejected — the source requires
`data.length > 4`, so a four-byte body never reaches the signature check,
refuting the claim for bodies that merely begin with the signature. -/
theorem png_signature_four_byte_body_rejected :
    checkImageExists (Except.ok ⟨200, none, [0x89, 0x50, 0x4E, 0x47]⟩) = false := by
  decide

/-- C4 (amended): for an accepted response (status < 400) whose Content-Type
is absent or does not start with `image/` and whose body is longer than four
bytes, a body beginning with the PNG signature `89 50 4E 47` is classified
valid; the same fallback accepts the JPEG (`FF D8 FF`) and GIF (`47 49 46 38`,
i.e. `GIF8`) signatures. -/
theorem signature_fallback_accepts_magic_bytes (st : Nat) (ct : Option String)
    (b0 b1 b2 b3 b4 : Nat) (rest : List Nat) (hst : st < 400)
    (hct : ∀ s, ct = some s → jsStartsWith s "image/" = false) :
    (b0 = 0x89 ∧ b1 = 0x50 ∧ b2 = 0x4E ∧ b3 = 0x47 →
      checkImageExists (Except.ok ⟨st, ct, b0 :: b1 :: b2 :: b3 :: b4 :: rest⟩) = true) ∧
    (b0 = 0xFF ∧ b1 = 0xD8 ∧ b2 = 0xFF →
      checkImageExists (Except.ok ⟨st, ct, b0 :: b1 :: b2 :: b3 :: b4 :: rest⟩) = true) ∧
    (b0 = 0x47 ∧ b1 = 0x49 ∧ b2 = 0x46 ∧ b3 = 0x38 →
      checkImageExists (Except.ok ⟨st, ct, b0 :: b1 :: b2 :: b3 :: b4 :: rest⟩) = true) := by
  have hImg : (match ct with
      | some c => jsStartsWith c "image/"
      | none => false) = false := by
    cases ct with
    | none => rfl
    | some s => exact hct s rfl
  refine ⟨?_, ?_, ?_⟩
  · rintro ⟨rfl, rfl, rfl, rfl⟩
    simp [checkImageExists, hst, hImg]
  · rintro ⟨rfl, rfl, rfl⟩
    simp [checkImageExists, hst, hImg]
  · rintro ⟨rfl, rfl, rfl, rfl⟩
    simp [checkImageExists, hst, hImg]

/-- C4 witness: a concrete mislabelled PNG response longer than four bytes is
accepted by the fallback. -/
theorem signature_fallback_accepts_magic_bytes_witness :
    checkImageExists (Except.ok ⟨200, some "text/html",
      [0x89, 0x50, 0x4E, 0x47, 0]⟩) = true :=
  (signature_fallback_accepts_magic_bytes 200 (some "text/html") 0x89 0x50 0x4E 0x47 0 []
    (by decide) (by intro s hs; cases hs; decide)).1 ⟨rfl, rfl, rfl, rfl⟩

/-! ### C2: product-code normalization at the claimed URL -/

/-- C2 counterexample: on `https://brandA.example/p/ANA_1203A474-002.html` the
extractor does not return `1203A474_002` — the host is not recognized as a
brand, so the generic extractor runs and keeps the `ANA_` prefix. -/
theorem brand_example_url_keeps_ana :
    extractProductCode "https://brandA.example/p/ANA_1203A474-002.html" ≠
      some "1203A474_002" := by
  decide

/-- C2 (amended): on the claimed URL the brand is Unknown and the generic
extractor returns `ANA_1203A474_002` (hyphen normalized to underscore, the
`ANA_` prefix kept); the `ANA_` prefix is stripped only by the ASICS-specific
pattern, on a URL detected as ASICS. -/
theorem product_code_normalization :
    extractProductCode "https://brandA.example/p/ANA_1203A474-002.html" =
      some "ANA_1203A474_002" ∧
    detectBrand "https://brandA.example/p/ANA_1203A474-002.html" =
      SupportedBrand.unknown ∧
    extractProductCode
      "https://www.asics.com/us/en-us/gel-venture-6-shield/p/ANA_1203A474-002.html" =
      some "1203A474_002" := by
  refine ⟨by decide, by decide, by decide⟩

/-! ### C1: extraction failure terminates the run -/

/-- C1 counterexample: for a URL with no extractable product code the
pipeline returns `[]` even though page scraping would have found a candidate
that validates as an image — the scraped results are discarded, refuting the
claim that the run continues with page-scraping-only results. -/
theorem extraction_failure_discards_scraped_candidates :
    getImagesFromUrl "https://example.com/item"
      (Except.ok ["https://img.example.com/a.jpg"])
      (fun _ => Except.ok ⟨200, some "image/jpeg", []⟩) = [] := by
  decide

/-- C1 (amended): whenever `extractProductCode` returns no code,
`getImagesFromUrl` returns the empty list immediately, for every fetch
outcome and every probe — page scraping is not attempted and its results are
not returned. -/
theorem extraction_failure_returns_empty (url : String)
    (fetched : Except Unit (List String))
    (probe : String → Except Unit ProbeResponse)
    (h : extractProductCode url = none) :
    getImagesFromUrl url fetched probe = [] := by
  simp [getImagesFromUrl, getImagesFromUrlCore, h]

/-- C1 witness: the early return at a concrete extraction-failure URL. -/
theorem extraction_failure_returns_empty_witness :
    extractProductCode "https://example.com/item" = none ∧
    getImagesFromUrl "https://example.com/item" (Except.ok [])
      (fun _ => Except.error ()) = [] :=
  ⟨by decide,
   extraction_failure_returns_empty "https://example.com/item" (Except.ok [])
     (fun _ => Except.error ()) (by decide)⟩

/-! ### Lemmas: greedy clustering -/

/-- Specification of one successful absorb pass: the updated processed set is
the absorbed members plus the old one; the absorbed members are distinct,
come from the scanned list, and were neither processed nor the seed. -/
theorem absorbLoop_ok_spec (brand : SupportedBrand) (seed : String) :
    ∀ (others processed g p : List String),
      absorbLoop brand seed others processed = Except.ok (g, p) →
      List.Perm p (g ++ processed) ∧ g.Nodup ∧
        ∀ x ∈ g, x ∈ others ∧ x ∉ processed ∧ x ≠ seed := by
  intro others
  induction others with
  | nil =>
    intro processed g p h
    simp only [absorbLoop] at h
    rw [Except.ok.injEq, Prod.mk.injEq] at h
    obtain ⟨rfl, rfl⟩ := h
    exact ⟨by simp, List.nodup_nil, by intro x hx; cases hx⟩
  | cons other rest ih =>
    intro processed g p h
    simp only [absorbLoop] at h
    by_cases hskip : other = seed ∨ other ∈ processed
    · rw [if_pos hskip] at h
      obtain ⟨hperm, hnd, hmem⟩ := ih processed g p h
      exact ⟨hperm, hnd, fun x hx =>
        ⟨List.mem_cons_of_mem other (hmem x hx).1, (hmem x hx).2.1, (hmem x hx).2.2⟩⟩
    · rw [if_neg hskip] at h
      push_neg at hskip
      cases hsim : areSimilarImageUrls seed other brand with
      | error e => rw [hsim] at h; simp at h
      | ok b =>
        rw [hsim] at h
        cases b with
        | false =>
          obtain ⟨hperm, hnd, hmem⟩ := ih processed g p h
          exact ⟨hperm, hnd, fun x hx =>
            ⟨List.mem_cons_of_mem other (hmem x hx).1, (hmem x hx).2.1, (hmem x hx).2.2⟩⟩
        | true =>
          cases hrec : absorbLoop brand seed rest (other :: processed) with
          | error e => rw [hrec] at h; simp at h
          | ok gp =>
            obtain ⟨g', p'⟩ := gp
            rw [hrec] at h
            rw [Except.ok.injEq, Prod.mk.injEq] at h
            obtain ⟨rfl, rfl⟩ := h
            obtain ⟨hperm, hnd, hmem⟩ := ih (other :: processed) g' p' hrec
            refine ⟨?_, ?_, ?_⟩
            · exact hperm.trans List.perm_middle
            · refine List.nodup_cons.mpr ⟨?_, hnd⟩
              intro hmem'
              exact (hmem other hmem').2.1 (List.mem_cons_self other processed)
            · intro x hx
              rcases List.mem_cons.mp hx with rfl | hx'
              · exact ⟨List.mem_cons_self x rest, hskip.2, hskip.1⟩
              · obtain ⟨hin, hnotin, hne⟩ := hmem x hx'
                exact ⟨List.mem_cons_of_mem other hin,
                  fun hc => hnotin (List.mem_cons_of_mem other hc), hne⟩

/-- Moving a duplicate-free sublist to the front is a permutation. -/
theorem perm_append_filter_not_mem {g L : List String} (hg : g.Nodup) (hL : L.Nodup)
    (hsub : ∀ x ∈ g, x ∈ L) :
    List.Perm (g ++ L.filter (fun x => decide (x ∉ g))) L := by
  have h1 : List.Perm (L.filter (fun x => decide (x ∈ g))) g := by
    rw [List.perm_ext_iff_of_nodup (hL.filter _) hg]
    intro a
    simp only [List.mem_filter, decide_eq_true_eq]
    exact ⟨fun hx => hx.2, fun hx => ⟨hsub a hx, hx⟩⟩
  have h2 : List.Perm
      (L.filter (fun x => decide (x ∈ g)) ++ L.filter (fun x => decide (x ∉ g))) L := by
    have h3 := List.filter_append_perm (fun x => decide (x ∈ g)) L
    simpa [decide_not] using h3
  exact (h1.symm.append_right _).trans h2

/-- Specification of a successful clustering pass starting from a processed
set covering everything outside `rest`: the clusters flatten to a permutation
of the unprocessed part of `rest`, and no cluster is empty. -/
theorem clusterLoop_ok_spec (brand : SupportedBrand) (all : List String) :
    ∀ (rest processed : List String) (gs : List (List String)),
      rest.Nodup →
      (∀ x ∈ all, x ∉ processed → x ∈ rest) →
      clusterLoop brand all rest processed = Except.ok gs →
      List.Perm gs.flatten (rest.filter (fun x => decide (x ∉ processed))) ∧
        ∀ g ∈ gs, g ≠ [] := by
  intro rest
  induction rest with
  | nil =>
    intro processed gs _ _ h
    simp only [clusterLoop] at h
    rw [Except.ok.injEq] at h
    obtain rfl := h
    exact ⟨by simp, by intro g hg; cases hg⟩
  | cons url rest' ih =>
    intro processed gs hnd hcov h
    simp only [clusterLoop] at h
    by_cases hurl : url ∈ processed
    · rw [if_pos hurl] at h
      have hcov' : ∀ x ∈ all, x ∉ processed → x ∈ rest' := by
        intro x hx hxp
        rcases List.mem_cons.mp (hcov x hx hxp) with rfl | hx'
        · exact absurd hurl hxp
        · exact hx'
      obtain ⟨hperm, hne⟩ := ih processed gs (List.Nodup.of_cons hnd) hcov' h
      refine ⟨?_, hne⟩
      have hfr : (url :: rest').filter (fun x => decide (x ∉ processed)) =
          rest'.filter (fun x => decide (x ∉ processed)) := by
        simp [List.filter_cons, hurl]
      rw [hfr]
      exact hperm
    · rw [if_neg hurl] at h
      cases habs : absorbLoop brand url all (url :: processed) with
      | error e => rw [habs] at h; simp at h
      | ok gp =>
        obtain ⟨g, p⟩ := gp
        simp only [habs] at h
        cases hrec : clusterLoop brand all rest' p with
        | error e => simp only [hrec] at h; exact (Except.noConfusion h)
        | ok gs' =>
          simp only [hrec] at h
          rw [Except.ok.injEq] at h
          obtain rfl := h
          obtain ⟨hpp, hgnd, hgmem⟩ := absorbLoop_ok_spec brand url all (url :: processed) g p habs
          have hpmem : ∀ x, x ∈ p ↔ x ∈ g ∨ x = url ∨ x ∈ processed := by
            intro x
            rw [hpp.mem_iff]
            simp [List.mem_append, List.mem_cons]
          have hurl_rest' : url ∉ rest' := (List.nodup_cons.mp hnd).1
          have hcov' : ∀ x ∈ all, x ∉ p → x ∈ rest' := by
            intro x hx hxp
            rw [hpmem x] at hxp
            push_neg at hxp
            obtain ⟨hxg, hxu, hxpr⟩ := hxp
            rcases List.mem_cons.mp (hcov x hx hxpr) with rfl | hx'
            · exact absurd rfl hxu
            · exact hx'
          obtain ⟨hperm', hne'⟩ := ih p gs' (List.Nodup.of_cons hnd) hcov' hrec
          refine ⟨?_, ?_⟩
          · have hfl : ((url :: g) :: gs').flatten = url :: (g ++ gs'.flatten) := by simp
            rw [hfl]
            have hfr : (url :: rest').filter (fun x => decide (x ∉ processed)) =
                url :: rest'.filter (fun x => decide (x ∉ processed)) := by
              simp [List.filter_cons, hurl]
            rw [hfr]
            apply List.Perm.cons
            have hsub : ∀ x ∈ g, x ∈ rest'.filter (fun x => decide (x ∉ processed)) := by
              intro x hx
              obtain ⟨hxall, hxnp, hxne⟩ := hgmem x hx
              have hxpr : x ∉ processed := fun hc => hxnp (List.mem_cons_of_mem url hc)
              have hxrest : x ∈ rest' := by
                rcases List.mem_cons.mp (hcov x hxall hxpr) with rfl | hx'
                · exact absurd rfl hxne
                · exact hx'
              simp [List.mem_filter, hxrest, hxpr]
            have hfilt : rest'.filter (fun x => decide (x ∉ p)) =
                (rest'.filter (fun x => decide (x ∉ processed))).filter
                  (fun x => decide (x ∉ g)) := by
              rw [List.filter_filter]
              apply List.filter_congr
              intro x hxr
              have hxu : x ≠ url := fun hc => hurl_rest' (hc ▸ hxr)
              by_cases hxg : x ∈ g <;> by_cases hxp2 : x ∈ processed <;>
                simp [hpmem x, hxg, hxp2, hxu]
            have hL : (rest'.filter (fun x => decide (x ∉ processed))).Nodup :=
              (List.Nodup.of_cons hnd).filter _
            refine List.Perm.trans (hperm'.append_left g) ?_
            rw [hfilt]
            exact perm_append_filter_not_mem hgnd hL hsub
          · intro gg hgg
            rcases List.mem_cons.mp hgg with rfl | hgg'
            · simp
            · exact hne' gg hgg'

/-- C7: on a deduplicated (exact-string-distinct) candidate list, for any
brand, a completed greedy clustering partitions the input — the clusters
flatten to a permutation of the candidates, so every candidate lands in
exactly one cluster and none is dropped or duplicated. -/
theorem clustering_partitions (urls : List String) (brand : SupportedBrand)
    (gs : List (List String)) (hnd : urls.Nodup)
    (h : clusterGroups urls brand = Except.ok gs) :
    List.Perm gs.flatten urls := by
  unfold clusterGroups at h
  obtain ⟨hperm, _⟩ := clusterLoop_ok_spec brand urls urls [] gs hnd (fun x hx _ => hx) h
  have hfilter : urls.filter (fun x => decide (x ∉ ([] : List String))) = urls := by
    apply List.filter_eq_self.mpr
    intro a _
    simp
  rw [hfilter] at hperm
  exact hperm

/-- C7 witness: the partition at a concrete two-url list. -/
theorem clustering_partitions_witness :
    List.Perm ([["a"], ["b"]] : List (List String)).flatten ["a", "b"] :=
  clustering_partitions ["a", "b"] SupportedBrand.unknown [["a"], ["b"]]
    (by decide) (by rfl)

/-! ### Lemmas: distinctness of the final output -/

/-- `toImageInfos` copies the url list into the `src` fields. -/
theorem toImageInfos_map_src (code : String) :
    ∀ (i : Nat) (l : List String), (toImageInfos code i l).map ImageInfo.src = l := by
  intro i l
  induction l generalizing i with
  | nil => rfl
  | cons x xs ih => simp [toImageInfos, ih]

/-- Picking one member from each cluster of a duplicate-free family gives
pairwise distinct representatives. -/
theorem map_pick_nodup :
    ∀ (gs : List (List String)), gs.flatten.Nodup → (∀ g ∈ gs, g ≠ []) →
      (gs.map pickRepresentative).Nodup := by
  intro gs
  induction gs with
  | nil => intro _ _; exact List.nodup_nil
  | cons g gs' ih =>
    intro hnd hne
    have hflat : (g ++ gs'.flatten).Nodup := by simpa using hnd
    obtain ⟨hg, hgs, hdisj⟩ := List.nodup_append.mp hflat
    refine List.nodup_cons.mpr
      ⟨?_, ih hgs (fun g' hg' => hne g' (List.mem_cons_of_mem g hg'))⟩
    intro hmem
    obtain ⟨g', hg', hpick⟩ := List.mem_map.mp hmem
    have hp1 : pickRepresentative g ∈ g :=
      pickRepresentative_mem (hne g (List.mem_cons_self g gs'))
    have hp2 : pickRepresentative g' ∈ g' :=
      pickRepresentative_mem (hne g' (List.mem_cons_of_mem g hg'))
    have hp2' : pickRepresentative g ∈ gs'.flatten :=
      List.mem_flatten.mpr ⟨g', hg', hpick ▸ hp2⟩
    exact hdisj hp1 hp2'

/-- A completed `filterSimilarUrls` on a duplicate-free input returns
pairwise distinct representatives. -/
theorem filterSimilarUrls_nodup (urls : List String) (brand : SupportedBrand)
    (out : List String) (hnd : urls.Nodup)
    (h : filterSimilarUrls urls brand = Except.ok out) : out.Nodup := by
  unfold filterSimilarUrls at h
  by_cases hlen : urls.length ≤ 1
  · rw [if_pos hlen] at h
    rw [Except.ok.injEq] at h
    obtain rfl := h
    exact hnd
  · rw [if_neg hlen] at h
    cases hcg : clusterGroups urls brand with
    | error e => simp only [hcg] at h; exact (Except.noConfusion h)
    | ok gs =>
      simp only [hcg] at h
      rw [Except.ok.injEq] at h
      obtain rfl := h
      unfold clusterGroups at hcg
      obtain ⟨hperm, hne⟩ :=
        clusterLoop_ok_spec brand urls urls [] gs hnd (fun x hx _ => hx) hcg
      have hfilter : urls.filter (fun x => decide (x ∉ ([] : List String))) = urls := by
        apply List.filter_eq_self.mpr
        intro a _
        simp
      rw [hfilter] at hperm
      have hflnd : gs.flatten.Nodup := hperm.nodup_iff.mpr hnd
      exact map_pick_nodup gs hflnd hne

/-- C6: for every pipeline run (any input URL, any fetch outcome, any probe
outcomes), the `src` fields of the returned images are pairwise distinct. -/
theorem no_duplicate_src (url : String) (fetched : Except Unit (List String))
    (probe : String → Except Unit ProbeResponse) :
    ((getImagesFromUrl url fetched probe).map ImageInfo.src).Nodup := by
  unfold getImagesFromUrl getImagesFromUrlCore
  cases hpc : extractProductCode url with
  | none => simp
  | some code =>
    simp only
    cases hfs : filterSimilarUrls
        (dedup (generateImageUrls code (detectBrand url) ++ scrapeImagesFromPage fetched))
        (detectBrand url) with
    | error e => simp [hfs]
    | ok filtered =>
      simp only [hfs]
      have hnd : filtered.Nodup :=
        filterSimilarUrls_nodup _ _ _ (dedup_nodup _) hfs
      rw [toImageInfos_map_src, checkBatchImageUrls_eq_filter]
      exact hnd.filter _

/-! ### C9: propagation policy -/

/-- C9: only an InputError (malformed page URL, rejected by the zod `.url()`
schema) is fatal to the `getImages` operation; on every valid URL the
operation resolves with an image list for all fetch and probe outcomes —
extraction failure yields `[]`, a page-fetch failure is the same as zero
scraped candidates, a per-URL probe failure is just `false` for that URL, and
any internal throw is caught into `[]`. -/
theorem error_propagation_policy (url : String) (fetched : Except Unit (List String))
    (probe : String → Except Unit ProbeResponse) :
    ((parseURL url).isSome = false → getImages url fetched probe = Except.error ()) ∧
    ((parseURL url).isSome = true →
      getImages url fetched probe = Except.ok (getImagesFromUrl url fetched probe)) ∧
    (extractProductCode url = none → getImagesFromUrl url fetched probe = []) ∧
    (getImagesFromUrl url (Except.error ()) probe =
      getImagesFromUrl url (Except.ok []) probe) ∧
    (checkImageExists (Except.error ()) = false) ∧
    (∀ e, getImagesFromUrlCore url fetched probe = Except.error e →
      getImagesFromUrl url fetched probe = []) := by
  refine ⟨?_, ?_, ?_, ?_, rfl, ?_⟩
  · intro h
    unfold getImages
    cases hp : parseURL url with
    | none => rfl
    | some u => rw [hp] at h; simp at h
  · intro h
    unfold getImages
    cases hp : parseURL url with
    | none => rw [hp] at h; simp at h
    | some u => rfl
  · intro h
    simp [getImagesFromUrl, getImagesFromUrlCore, h]
  · rfl
  · intro e h
    unfold getImagesFromUrl
    rw [h]

/-- C9 witness: the policy at concrete inputs — a malformed URL is rejected,
a well-formed URL resolves, and an extraction failure yields the empty list. -/
theorem error_propagation_policy_witness :
    getImages "nota url" (Except.ok []) (fun _ => Except.error ()) = Except.error () ∧
    getImages "https://example.com/item" (Except.ok []) (fun _ => Except.error ()) =
      Except.ok (getImagesFromUrl "https://example.com/item" (Except.ok [])
        (fun _ => Except.error ())) ∧
    getImagesFromUrl "https://example.com/item" (Except.ok [])
      (fun _ => Except.error ()) = [] :=
  ⟨(error_propagation_policy "nota url" (Except.ok [])
      (fun _ => Except.error ())).1 (by rfl),
   (error_propagation_policy "https://example.com/item" (Except.ok [])
      (fun _ => Except.error ())).2.1 (by rfl),
   (error_propagation_policy "https://example.com/item" (Except.ok [])
      (fun _ => Except.error ())).2.2.1 (by decide)⟩

/-! ### C10: the Bottega Veneta similarity predicate throws on unparseable URLs -/

/-- C10: the Bottega Veneta similarity predicate is total only on parseable
URLs — on a pair whose first member is a relative path it throws (its
unguarded `new URL(...)` calls), the thrown error propagates out of the
clustering loop, and any such internal error is caught by the pipeline's
top-level catch; on every pair of parseable URLs the predicate returns a
boolean. -/
theorem bv_similarity_total_only_on_parseable :
    (areSimilarBottegaVenetaImageUrls "/images/p.jpg"
      "https://www.bottegaveneta.com/a.jpg" = Except.error ()) ∧
    (∀ u1 u2 : String, (parseURL u1).isSome = true → (parseURL u2).isSome = true →
      (areSimilarBottegaVenetaImageUrls u1 u2).isOk = true) ∧
    (filterSimilarUrls ["https://www.bottegaveneta.com/a.jpg", "/images/p.jpg"]
      SupportedBrand.bottegaVeneta = Except.error ()) ∧
    (∀ (url : String) (fetched : Except Unit (List String))
        (probe : String → Except Unit ProbeResponse) (e : Unit),
      getImagesFromUrlCore url fetched probe = Except.error e →
      getImagesFromUrl url fetched probe = []) := by
  refine ⟨by rfl, ?_, by rfl, ?_⟩
  · intro u1 u2 h1 h2
    unfold areSimilarBottegaVenetaImageUrls
    by_cases heq : u1 = u2
    · rw [if_pos heq]
      rfl
    · rw [if_neg heq]
      by_cases hvc : (extractViewCode u1).isSome ∧ (extractViewCode u2).isSome ∧
          extractViewCode u1 ≠ extractViewCode u2
      · rw [if_pos hvc]
        rfl
      · rw [if_neg hvc]
        obtain ⟨p1, hp1⟩ := Option.isSome_iff_exists.mp h1
        obtain ⟨p2, hp2⟩ := Option.isSome_iff_exists.mp h2
        simp only [hp1, hp2]
        split
        · rfl
        · rfl
  · intro url fetched probe e h
    unfold getImagesFromUrl
    rw [h]

/-- C10 witness: the predicate is a boolean on a concrete parseable pair. -/
theorem bv_similarity_total_only_on_parseable_witness :
    (areSimilarBottegaVenetaImageUrls "https://a.com/x" "https://b.com/y").isOk = true :=
  (bv_similarity_total_only_on_parseable).2.1 "https://a.com/x" "https://b.com/y"
    (by rfl) (by rfl)
